import Mathlib

/-!
Shallow embedding of the signal lifecycle engine of the bot-5min repository
(src/botfx.py and src/bot.py).  Prices, indicator values and timestamps are
modelled as exact rationals: botfx.py performs its level computation in
decimal arithmetic (Decimal with ROUND_HALF_UP), which rationals model
exactly; durations are seconds.  Fallible effects (price fetches over HTTP,
Telegram message delivery) are modelled as oracle functions supplied in an
environment record, and the outcome of one scheduler tick is a pure
function of that environment and the current store.
-/

/-- Trade direction; botfx.py and bot.py encode it as the strings BUY and SELL. -/
inductive Dir where
  | buy
  | sell
deriving DecidableEq

/-- One open signal record, as appended to ACTIVE_S in botfx.py (and
ACTIVE_SIGNALS in bot.py): fields pair, direction, entry, tp, sl,
created_at, message_id.  The created_at timestamp is modelled as seconds
(a rational), message_id as a natural number. -/
structure Signal where
  pair : String
  direction : Dir
  entry : ℚ
  tp : ℚ
  sl : ℚ
  createdAt : ℚ
  messageId : ℕ
deriving DecidableEq

/-- Python list slice lst[-n:] for n at least 1: the last n elements
(the whole list when it is shorter than n). -/
def lastN (lst : List ℚ) (n : ℕ) : List ℚ :=
  lst.drop (lst.length - n)

/-- botfx.py, sma: sum(lst[-n:]) / n if len(lst) >= n else None.
Faithful for n at least 1 (the code only calls it with n = 14). -/
def sma (lst : List ℚ) (n : ℕ) : Option ℚ :=
  if n ≤ lst.length then some ((lastN lst n).sum / n) else none

/-- The price-to-price deltas [c - p for p, c in zip(closes, closes[1:])]. -/
def deltasOf (closes : List ℚ) : List ℚ :=
  List.zipWith (fun p c => c - p) closes closes.tail

/-- botfx.py, rsi: gains = [d if d > 0 else 0 for d in deltas[-n:]]. -/
def gains (closes : List ℚ) (n : ℕ) : List ℚ :=
  (lastN (deltasOf closes) n).map fun d => if 0 < d then d else 0

/-- botfx.py, rsi: losses = [-d if d < 0 else 0 for d in deltas[-n:]]. -/
def losses (closes : List ℚ) (n : ℕ) : List ℚ :=
  (lastN (deltasOf closes) n).map fun d => if d < 0 then -d else 0

/-- botfx.py, rsi(closes, n=14).  The Python guard
"if not avg_gain or not avg_loss or avg_loss == 0" treats a zero (falsy)
average exactly like a missing one, hence the explicit zero test here. -/
def rsi (closes : List ℚ) (n : ℕ) : Option ℚ :=
  if closes.length < n + 1 then none
  else
    match sma (gains closes n) n, sma (losses closes n) n with
    | some avgGain, some avgLoss =>
        if avgGain = 0 ∨ avgLoss = 0 then none
        else some (100 - 100 / (1 + avgGain / avgLoss))
    | _, _ => none

/-- botfx.py, atr(closes, n=14): simple average of the last n absolute
close-to-close moves. -/
def atr (closes : List ℚ) (n : ℕ) : Option ℚ :=
  if closes.length < n + 1 then none
  else sma ((List.zipWith (fun p c => |c - p|) closes closes.tail)) n

/-- Character-list comparison used to model Python substring search:
listLead a b is true when a is an initial segment of b. -/
def listLead : List Char → List Char → Bool
  | [], _ => true
  | _ :: _, [] => false
  | a :: as, b :: bs => a == b && listLead as bs

/-- Model of the Python expression sub in s (substring containment). -/
def listHas (needle : List Char) : List Char → Bool
  | [] => needle.isEmpty
  | c :: cs => listLead needle (c :: cs) || listHas needle cs

/-- strContains s sub models the Python expression sub in s. -/
def strContains (s sub : String) : Bool :=
  listHas sub.toList s.toList

/-- botfx.py, send_signals: tick = Decimal(0.01) if JPY in pair else Decimal(0.0001). -/
def tickOf (pair : String) : ℚ :=
  if strContains pair "JPY" then 1 / 100 else 1 / 10000

/-- Rounding to the nearest integer with ties going away from zero, the
rounding function applied by Decimal.quantize with ROUND_HALF_UP. -/
def rhalfAway (y : ℚ) : ℤ :=
  if 0 ≤ y then ⌊y + 1 / 2⌋ else -⌊-y + 1 / 2⌋

/-- Decimal.quantize(tick, rounding=ROUND_HALF_UP): round x to the nearest
multiple of tick, ties away from zero. -/
def quantizeTick (tick x : ℚ) : ℚ :=
  tick * rhalfAway (x / tick)

/-- The direction decision and price levels computed by one loop body of
botfx.py send_signals (lines 142 to 160): length guard, indicators,
RSI threshold rule, tick-size rounded take profit and stop loss. -/
structure Decision where
  direction : Dir
  entry : ℚ
  tp : ℚ
  sl : ℚ
deriving DecidableEq

/-- botfx.py send_signals, pure decision part for one pair given the fetched
closes: skip when the series is shorter than 15, when an indicator is
undefined or when the RSI is neutral; otherwise compute the levels
tp = current + atr * 1.5 * sign and sl = current - atr * 1.0 * sign,
each quantized to the tick with ROUND_HALF_UP. -/
def evalPair (pair : String) (closes : List ℚ) : Option Decision :=
  if closes.length < 15 then none
  else
    let current := closes.getLastD 0
    match rsi closes 14, atr closes 14 with
    | some rsiVal, some atrVal =>
        match (if rsiVal < 30 then some Dir.buy
               else if 70 < rsiVal then some Dir.sell else none) with
        | none => none
        | some d =>
            let tick := tickOf pair
            let s : ℚ := if d = Dir.buy then 1 else -1
            let tp := quantizeTick tick (current + atrVal * (3 / 2) * s)
            let sl := quantizeTick tick (current - atrVal * 1 * s)
            some ⟨d, current, tp, sl⟩
    | _, _ => none

/-- Observable effects of processing one pair on the open path: whether a
price series was requested, whether a notification send was attempted, and
the signal appended to the store (when the send succeeded). -/
structure Trace where
  fetched : Bool
  notified : Bool
  opened : Option Signal
deriving DecidableEq

/-- Environment of one send_signals tick in botfx.py: the Twelve Data
series per pair (none models both a failed request and an empty payload),
whether the Telegram send succeeds for a given pair, and the message id
Telegram returns. -/
structure Env where
  series : String → Option (List ℚ)
  notifyOk : String → Bool
  msgId : String → ℕ

/-- One loop body of botfx.py send_signals (lines 134 to 188) for one pair:
skip silently when the pair already has an open signal, otherwise fetch the
series, evaluate the decision, and on a produced decision attempt the open
notification; only a successful send appends the signal to the store. -/
def processPair (env : Env) (t : ℚ) (store : List Signal) (pair : String) :
    List Signal × Trace :=
  if store.any (fun s => s.pair == pair) then (store, ⟨false, false, none⟩)
  else
    match env.series pair with
    | none => (store, ⟨true, false, none⟩)
    | some closes =>
        match evalPair pair closes with
        | none => (store, ⟨true, false, none⟩)
        | some dec =>
            if env.notifyOk pair then
              (store ++ [⟨pair, dec.direction, dec.entry, dec.tp, dec.sl, t,
                          env.msgId pair⟩],
               ⟨true, true, some ⟨pair, dec.direction, dec.entry, dec.tp, dec.sl, t,
                                  env.msgId pair⟩⟩)
            else (store, ⟨true, true, none⟩)

/-- The send_signals loop over a list of pairs, threading the store and
collecting the per-pair traces in order. -/
def sendList (env : Env) (t : ℚ) (store : List Signal) :
    List String → List Signal × List Trace
  | [] => (store, [])
  | pair :: rest =>
      let st := processPair env t store pair
      let res := sendList env t st.1 rest
      (res.1, st.2 :: res.2)

/-- The fixed pair universe of botfx.py send_signals. -/
def PAIRS : List String := ["EUR/USD", "GBP/USD", "AUD/USD", "USD/JPY"]

/-- One full send_signals tick of botfx.py. -/
def send_signals_fx (env : Env) (t : ℚ) (store : List Signal) :
    List Signal × List Trace :=
  sendList env t store PAIRS

/-- Outcome classification labels of the close path: GANADA, PERDIDA, and
the pending case (result None in botfx.py, EMPATE in bot.py). -/
inductive Outcome where
  | win
  | loss
  | pending
deriving DecidableEq

/-- The result classification of botfx.py check_results (lines 210 to 216),
identical in shape to build_result_msg in bot.py: win when (BUY and
current >= tp) or (SELL and current <= tp), else loss when (BUY and
current <= sl) or (SELL and current >= sl), else pending. -/
def classify (d : Dir) (tp sl current : ℚ) : Outcome :=
  if (d = Dir.buy ∧ tp ≤ current) ∨ (d = Dir.sell ∧ current ≤ tp) then .win
  else if (d = Dir.buy ∧ current ≤ sl) ∨ (d = Dir.sell ∧ sl ≤ current) then .loss
  else .pending

/-- A result notification attempt emitted by the close path: the pair, the
message id the reply is threaded to, the classified outcome, and whether
the Telegram send succeeded. -/
structure REvent where
  pair : String
  messageId : ℕ
  outcome : Outcome
  delivered : Bool
deriving DecidableEq

/-- Environment of one check_results tick in botfx.py: the latest price per
pair (none models a failed lookup) and whether the result send succeeds. -/
structure CEnv where
  price : String → Option ℚ
  resultOk : String → Bool

/-- One loop body of botfx.py check_results for a single signal: keep it
when inside the 300 second holding period, when no price is available, or
when the classification is pending; otherwise emit a result notification
attempt (delivered or not) and drop the signal. -/
def keepAndEvents (env : CEnv) (now : ℚ) (sig : Signal) : Bool × List REvent :=
  if now - sig.createdAt < 300 then (true, [])
  else
    match env.price sig.pair with
    | none => (true, [])
    | some current =>
        match classify sig.direction sig.tp sig.sl current with
        | .pending => (true, [])
        | o => (false, [⟨sig.pair, sig.messageId, o, env.resultOk sig.pair⟩])

/-- The check_results loop, building the still list and the result events. -/
def checkLoop (env : CEnv) (now : ℚ) : List Signal → List Signal × List REvent
  | [] => ([], [])
  | sig :: rest =>
      let ke := keepAndEvents env now sig
      let res := checkLoop env now rest
      (if ke.1 then sig :: res.1 else res.1, ke.2 ++ res.2)

/-- One full check_results tick of botfx.py (lines 192 to 236): signals
older than the 6 hour cutoff are discarded up front, the remaining ones go
through the resolution loop, and the store is replaced by the still list. -/
def checkResults (env : CEnv) (now : ℚ) (store : List Signal) :
    List Signal × List REvent :=
  checkLoop env now (store.filter fun s => decide (now - 21600 < s.createdAt))

/-- States of the open-signal store reachable from a fresh start (the load
of a missing or unreadable signals.json yields the empty list) under any
interleaving of send_signals and check_results ticks, with arbitrary
environments and tick times. -/
inductive Reachable : List Signal → Prop where
  | init : Reachable []
  | send (env : Env) (t : ℚ) {s : List Signal} :
      Reachable s → Reachable (send_signals_fx env t s).1
  | check (env : CEnv) (t : ℚ) {s : List Signal} :
      Reachable s → Reachable (checkResults env t s).1

/-- At most one open signal per pair. -/
def PairsDistinct (store : List Signal) : Prop :=
  store.Pairwise fun a b => a.pair ≠ b.pair

/-- Timestamps as Python datetime.time values: hour, minute, second,
microsecond.  Python compares time values lexicographically on this tuple. -/
structure PyTime where
  hour : ℕ
  minute : ℕ
  second : ℕ
  microsecond : ℕ
deriving DecidableEq

/-- The lexicographic order on Python time values. -/
def timeLe (a b : PyTime) : Bool :=
  decide (a.hour < b.hour ∨ (a.hour = b.hour ∧
    (a.minute < b.minute ∨ (a.minute = b.minute ∧
      (a.second < b.second ∨ (a.second = b.second ∧
        a.microsecond ≤ b.microsecond))))))

/-- bot.py, NEWS_TIMES: the hard-coded Lima news windows. -/
def NEWS_TIMES : List (ℕ × ℕ × ℕ × ℕ) := [(8, 30, 9, 30), (14, 0, 15, 0)]

/-- bot.py, is_news_time(dt): for each window the start and end are the
current time-of-day with hour and minute replaced and second and
microsecond zeroed; true when start <= t <= end for some window. -/
def is_news_time (t : PyTime) : Bool :=
  NEWS_TIMES.any fun w =>
    timeLe ⟨w.1, w.2.1, 0, 0⟩ t && timeLe t ⟨w.2.2.1, w.2.2.2, 0, 0⟩

/-- The property stated by the claim: the local time falls inside the
window 08:30 to 09:30 or the window 14:00 to 15:00 (both inclusive). -/
def inNewsWindow (t : PyTime) : Prop :=
  (timeLe ⟨8, 30, 0, 0⟩ t = true ∧ timeLe t ⟨9, 30, 0, 0⟩ = true) ∨
  (timeLe ⟨14, 0, 0, 0⟩ t = true ∧ timeLe t ⟨15, 0, 0, 0⟩ = true)

/-- Environment of one send_signals tick in bot.py: the Alpha Vantage close
series per pair, the indicator library of the ta package (an external
collaborator computing Wilder-smoothed ATR and RSI over a series, modelled
as an oracle), Telegram send success and returned message id. -/
structure BotEnv where
  series : String → Option (List ℚ)
  indicators : List ℚ → Option ℚ × Option ℚ
  notifyOk : String → Bool
  msgId : String → ℕ

/-- bot.py, calc_indicators(series): (None, None) when the series is shorter
than LOOKBACK + 1 = 15, otherwise the last ATR and RSI values produced by
the external ta library. -/
def calc_indicators (env : BotEnv) (series : List ℚ) : Option ℚ × Option ℚ :=
  if series.length < 15 then (none, none) else env.indicators series

/-- Python 3 builtin round on a rational: round to the nearest integer with
ties going to the even integer. -/
def pyRound (y : ℚ) : ℤ :=
  if y - ⌊y⌋ < 1 / 2 then ⌊y⌋
  else if 1 / 2 < y - ⌊y⌋ then ⌊y⌋ + 1
  else if ⌊y⌋ % 2 = 0 then ⌊y⌋ else ⌊y⌋ + 1

/-- One loop body of bot.py send_signals (lines 169 to 213) for a
(base, quote) pair: skip when the pair already has an open signal,
otherwise fetch the series, compute the library indicators, apply the RSI
thresholds, round tp and sl to tick multiples with the builtin round
(tick 0.01 when the quote currency is JPY, else 0.0001), and persist only
after a successful open notification.  The source computes the levels in
IEEE doubles; this embedding idealizes that arithmetic as exact rationals,
which is faithful away from representation effects (in particular no
theorem here relies on the rounding of an exact half-way quotient, where
floats and rationals can disagree). -/
def processPairBot (env : BotEnv) (t : ℚ) (store : List Signal)
    (bq : String × String) : List Signal × Trace :=
  let pair := bq.1 ++ "/" ++ bq.2
  if store.any (fun s => s.pair == pair) then (store, ⟨false, false, none⟩)
  else
    match env.series pair with
    | none => (store, ⟨true, false, none⟩)
    | some closes =>
        match calc_indicators env closes with
        | (some atrVal, some rsiVal) =>
            match (if rsiVal < 30 then some Dir.buy
                   else if 70 < rsiVal then some Dir.sell else none) with
            | none => (store, ⟨true, false, none⟩)
            | some d =>
                let lastClose := closes.getLastD 0
                let tick : ℚ := if bq.2 == "JPY" then 1 / 100 else 1 / 10000
                let s : ℚ := if d = Dir.sell then -1 else 1
                let tp := tick * pyRound ((lastClose + atrVal * (3 / 2) * s) / tick)
                let sl := tick * pyRound ((lastClose - atrVal * 1 * s) / tick)
                if env.notifyOk pair then
                  (store ++ [⟨pair, d, lastClose, tp, sl, t, env.msgId pair⟩],
                   ⟨true, true, some ⟨pair, d, lastClose, tp, sl, t, env.msgId pair⟩⟩)
                else (store, ⟨true, true, none⟩)
        | _ => (store, ⟨true, false, none⟩)

/-- The bot.py send_signals loop over its (base, quote) pairs. -/
def sendListBot (env : BotEnv) (t : ℚ) (store : List Signal) :
    List (String × String) → List Signal × List Trace
  | [] => (store, [])
  | bq :: rest =>
      let st := processPairBot env t store bq
      let res := sendListBot env t st.1 rest
      (res.1, st.2 :: res.2)

/-- The fixed pair universe of bot.py. -/
def PAIRS_BOT : List (String × String) :=
  [("EUR", "USD"), ("GBP", "USD"), ("AUD", "USD"), ("USD", "JPY")]

/-- bot.py, send_signals (lines 163 to 213): return immediately during a
news window, otherwise run the per-pair loop. -/
def send_signals_bot (env : BotEnv) (dt : PyTime) (t : ℚ) (store : List Signal) :
    List Signal × List Trace :=
  if is_news_time dt then (store, [])
  else sendListBot env t store PAIRS_BOT

/-- Abstraction of the on-disk backing file at process start: absent,
present but not valid JSON, or parsing to a list of signal records. -/
inductive FileState where
  | missing
  | corrupt
  | valid (sigs : List Signal)

/-- botfx.py lines 49 to 53: try json.load, and on FileNotFoundError or
JSONDecodeError fall back to the empty list. -/
def loadActiveS : FileState → List Signal
  | .missing => []
  | .corrupt => []
  | .valid sigs => sigs

/-- bot.py, load_json(path, default): json.load(open(path)) if the file
exists else the default; a JSONDecodeError raised by json.load on an
unparseable file is not caught and propagates out of the module-level
call, modelled as Except.error. -/
def load_json : FileState → List Signal → Except String (List Signal)
  | .missing, dflt => .ok dflt
  | .corrupt, _ => .error "JSONDecodeError"
  | .valid sigs, _ => .ok sigs

/-- An already-open EUR/USD signal used to exercise the duplicate gate. -/
def sigEx : Signal := ⟨"EUR/USD", Dir.buy, 11 / 10, 1102 / 1000, 1098 / 1000, 0, 1⟩

/-- A fifteen-close series whose last fourteen deltas are one gain of
0.00001 and one loss of 0.00027: RSI is 25/7 (BUY zone) while the ATR is
0.00002, well below half the EUR/USD tick of 0.0001. -/
def cexCloses : List ℚ := [110026 / 100000, 110027 / 100000] ++ List.replicate 13 (11 / 10)

/-- Environment delivering cexCloses with a succeeding notification. -/
def cexEnv : Env := ⟨fun _ => some cexCloses, fun _ => true, fun _ => 1⟩

/-- A BUY series with a healthy ATR of 0.0002: one gain of 0.0001 and one
loss of 0.0027 among the last fourteen deltas, ending at 1.1. -/
def buyCloses : List ℚ := [11026 / 10000, 11027 / 10000] ++ List.replicate 13 (11 / 10)

/-- Environment delivering buyCloses with a succeeding notification. -/
def buyEnv : Env := ⟨fun _ => some buyCloses, fun _ => true, fun _ => 2⟩

/-- A SELL series with ATR 0.0002: one gain of 0.0027 and one loss of
0.0001 among the last fourteen deltas, ending at 1.1; its RSI is 675/7. -/
def c5closes : List ℚ := [10974 / 10000, 11001 / 10000] ++ List.replicate 13 (11 / 10)

/-- Environment delivering c5closes with a succeeding notification. -/
def c5env : Env := ⟨fun _ => some c5closes, fun _ => true, fun _ => 3⟩

/-- A SELL series for the notification-failure scenario: one gain of
0.0028 and one loss of 0.0002, ending at 1.1. -/
def c6closes : List ℚ := [10974 / 10000, 11002 / 10000] ++ List.replicate 13 (11 / 10)

/-- Environment delivering c6closes whose notification sink always fails. -/
def failEnv : Env := ⟨fun _ => some c6closes, fun _ => false, fun _ => 4⟩

/-- An open BUY signal created at time 0 with tp 1.102 and sl 1.098. -/
def sigC7 : Signal := ⟨"EUR/USD", Dir.buy, 11 / 10, 1102 / 1000, 1098 / 1000, 0, 5⟩

/-- Close-path environment: latest price 1.103 (above tp, a WIN) but the
result notification always fails. -/
def cenvC7 : CEnv := ⟨fun _ => some (1103 / 1000), fun _ => false⟩

/-- An open SELL signal created at time 0, more than six hours before the
check tick at time 30000. -/
def sigOld : Signal := ⟨"GBP/USD", Dir.sell, 12 / 10, 1197 / 1000, 1203 / 1000, 0, 9⟩

/-- Close-path environment in which no latest price is obtainable. -/
def cenvNoPrice : CEnv := ⟨fun _ => none, fun _ => true⟩

/-- A fifteen-close series with one gain of 2 and one loss of 1 among the
last fourteen deltas; its RSI is 200/3. -/
def c4closes : List ℚ := [1, 3, 2] ++ List.replicate 12 2

/-- A bot.py environment that never returns data, for the news-window check. -/
def quietBotEnv : BotEnv := ⟨fun _ => none, fun _ => (none, none), fun _ => true, fun _ => 0⟩

lemma rhalfAway_dist (y : ℚ) : |y - (rhalfAway y : ℚ)| ≤ 1 / 2 := by
  unfold rhalfAway
  split
  · have h1 : ((⌊y + 1 / 2⌋ : ℤ) : ℚ) ≤ y + 1 / 2 := Int.floor_le _
    have h2 : y + 1 / 2 < ⌊y + 1 / 2⌋ + 1 := Int.lt_floor_add_one _
    rw [abs_le]
    constructor <;> push_cast <;> linarith
  · have h1 : ((⌊-y + 1 / 2⌋ : ℤ) : ℚ) ≤ -y + 1 / 2 := Int.floor_le _
    have h2 : -y + 1 / 2 < ⌊-y + 1 / 2⌋ + 1 := Int.lt_floor_add_one _
    rw [abs_le]
    constructor <;> push_cast <;> linarith

lemma intDistQ (z w : ℤ) (h : z ≠ w) : (1 : ℚ) ≤ |(z : ℚ) - (w : ℚ)| := by
  have h1 : (1 : ℤ) ≤ |z - w| := Int.one_le_abs (sub_ne_zero.mpr h)
  calc (1 : ℚ) = ((1 : ℤ) : ℚ) := by norm_num
    _ ≤ ((|z - w| : ℤ) : ℚ) := by exact_mod_cast h1
    _ = |(z : ℚ) - (w : ℚ)| := by push_cast; rfl

lemma rhalfAway_nearest (y : ℚ) (z : ℤ) :
    |y - (rhalfAway y : ℚ)| ≤ |y - (z : ℚ)| := by
  by_cases hz : z = rhalfAway y
  · rw [hz]
  · have hone := intDistQ z (rhalfAway y) hz
    have htri : |(z : ℚ) - (rhalfAway y : ℚ)| ≤ |(z : ℚ) - y| + |y - (rhalfAway y : ℚ)| :=
      abs_sub_le _ _ _
    have hcomm : |(z : ℚ) - y| = |y - (z : ℚ)| := abs_sub_comm _ _
    have hdist := rhalfAway_dist y
    linarith

lemma rhalfAway_neg (y : ℚ) : rhalfAway (-y) = -rhalfAway y := by
  rcases lt_trichotomy y 0 with h | h | h
  · have h1 : (0 : ℚ) ≤ -y := by linarith
    have h2 : ¬ (0 : ℚ) ≤ y := by linarith
    simp only [rhalfAway, if_pos h1, if_neg h2, neg_neg]
  · subst h; norm_num [rhalfAway]
  · have h1 : ¬ (0 : ℚ) ≤ -y := by linarith
    have h2 : (0 : ℚ) ≤ y := le_of_lt h
    simp only [rhalfAway, if_pos h2, if_neg h1, neg_neg]

lemma rhalfAway_tie_nonneg (y : ℚ) (hy : 0 ≤ y) (z : ℤ)
    (h : |y - (z : ℚ)| = |y - (rhalfAway y : ℚ)|) :
    |(z : ℚ)| ≤ |(rhalfAway y : ℚ)| := by
  by_cases hz : z = rhalfAway y
  · rw [hz]
  · have hone := intDistQ z (rhalfAway y) hz
    have htri : |(z : ℚ) - (rhalfAway y : ℚ)| ≤ |(z : ℚ) - y| + |y - (rhalfAway y : ℚ)| :=
      abs_sub_le _ _ _
    have hcomm : |(z : ℚ) - y| = |y - (z : ℚ)| := abs_sub_comm _ _
    have hdist := rhalfAway_dist y
    have hhalf : |y - (rhalfAway y : ℚ)| = 1 / 2 := by
      apply le_antisymm hdist
      linarith
    have hr : rhalfAway y = ⌊y + 1 / 2⌋ := by unfold rhalfAway; rw [if_pos hy]
    have h1 : ((⌊y + 1 / 2⌋ : ℤ) : ℚ) ≤ y + 1 / 2 := Int.floor_le _
    have h2 : y + 1 / 2 < ⌊y + 1 / 2⌋ + 1 := Int.lt_floor_add_one _
    have hyr : y - (rhalfAway y : ℚ) = -(1 / 2) := by
      rcases (abs_eq (by norm_num : (0 : ℚ) ≤ 1 / 2)).mp hhalf with he | he
      · exfalso; rw [hr] at he; push_cast at he; linarith
      · exact he
    have hrq : (rhalfAway y : ℚ) = y + 1 / 2 := by linarith
    have hrpos : 0 < rhalfAway y := by
      have : (0 : ℚ) < (rhalfAway y : ℚ) := by rw [hrq]; linarith
      exact_mod_cast this
    have hz2 : (z : ℚ) = y + 1 / 2 ∨ (z : ℚ) = y - 1 / 2 := by
      rcases (abs_eq (by norm_num : (0 : ℚ) ≤ 1 / 2)).mp (h.trans hhalf) with he | he
      · right; linarith
      · left; linarith
    rcases hz2 with he | he
    · exfalso; apply hz
      have : (z : ℚ) = (rhalfAway y : ℚ) := by rw [he, hrq]
      exact_mod_cast this
    · have h0z : (0 : ℚ) ≤ (z : ℚ) := by
        have : (1 : ℚ) ≤ (rhalfAway y : ℚ) := by exact_mod_cast hrpos
        linarith [he, hrq]
      rw [abs_of_nonneg h0z, abs_of_nonneg (by positivity : (0:ℚ) ≤ (rhalfAway y : ℚ))]
      linarith [he, hrq]

lemma rhalfAway_tie (y : ℚ) (z : ℤ)
    (h : |y - (z : ℚ)| = |y - (rhalfAway y : ℚ)|) :
    |(z : ℚ)| ≤ |(rhalfAway y : ℚ)| := by
  rcases le_or_lt 0 y with hy | hy
  · exact rhalfAway_tie_nonneg y hy z h
  · have hneg := rhalfAway_neg y
    have h' : |(-y) - ((-z : ℤ) : ℚ)| = |(-y) - (rhalfAway (-y) : ℚ)| := by
      rw [hneg]; push_cast
      rw [show -y - -(z : ℚ) = -(y - z) by ring, show -y - -((rhalfAway y : ℤ) : ℚ) = -(y - (rhalfAway y : ℚ)) by ring,
        abs_neg, abs_neg]
      exact h
    have := rhalfAway_tie_nonneg (-y) (by linarith) (-z) h'
    rw [hneg] at this
    push_cast at this
    rwa [abs_neg, abs_neg] at this

lemma quantizeTick_mult (tick x : ℚ) : ∃ m : ℤ, quantizeTick tick x = tick * m :=
  ⟨rhalfAway (x / tick), rfl⟩

lemma tick_mul_div (tick x : ℚ) (ht : 0 < tick) : tick * (x / tick) = x := by
  field_simp

lemma quantizeTick_bounds (tick x : ℚ) (ht : 0 < tick) :
    x - tick / 2 ≤ quantizeTick tick x ∧ quantizeTick tick x ≤ x + tick / 2 := by
  have h := abs_le.mp (rhalfAway_dist (x / tick))
  have hx := tick_mul_div tick x ht
  unfold quantizeTick
  constructor
  · have := mul_le_mul_of_nonneg_left h.2 (le_of_lt ht)
    rw [mul_sub, hx] at this
    linarith
  · have := mul_le_mul_of_nonneg_left h.1 (le_of_lt ht)
    rw [mul_sub, hx] at this
    linarith

lemma abs_tick_dist (tick x : ℚ) (ht : 0 < tick) (z : ℤ) :
    |x - tick * z| = tick * |x / tick - (z : ℚ)| := by
  rw [show x - tick * z = tick * (x / tick - (z : ℚ)) by
        rw [mul_sub, tick_mul_div tick x ht],
    abs_mul, abs_of_pos ht]

lemma quantizeTick_nearest (tick x : ℚ) (ht : 0 < tick) (m : ℤ) :
    |x - quantizeTick tick x| ≤ |x - tick * m| := by
  have h := rhalfAway_nearest (x / tick) m
  rw [quantizeTick, abs_tick_dist tick x ht, abs_tick_dist tick x ht]
  exact mul_le_mul_of_nonneg_left h (le_of_lt ht)

lemma quantizeTick_tie (tick x : ℚ) (ht : 0 < tick) (m : ℤ)
    (h : |x - tick * m| = |x - quantizeTick tick x|) :
    |tick * m| ≤ |quantizeTick tick x| := by
  have h' : |x / tick - (m : ℚ)| = |x / tick - (rhalfAway (x / tick) : ℚ)| := by
    have h2 := h
    rw [quantizeTick, abs_tick_dist tick x ht, abs_tick_dist tick x ht] at h2
    exact mul_left_cancel₀ (ne_of_gt ht) h2
  have hle := rhalfAway_tie (x / tick) m h'
  rw [quantizeTick]
  calc |tick * (m : ℚ)| = tick * |(m : ℚ)| := by rw [abs_mul, abs_of_pos ht]
    _ ≤ tick * |(rhalfAway (x / tick) : ℚ)| := mul_le_mul_of_nonneg_left hle (le_of_lt ht)
    _ = |tick * (rhalfAway (x / tick) : ℚ)| := by rw [abs_mul, abs_of_pos ht]

lemma tickOf_pos (pair : String) : 0 < tickOf pair := by
  unfold tickOf; split <;> norm_num

lemma processPair_opened_inv {env : Env} {t : ℚ} {store : List Signal} {pair : String}
    {sig : Signal} (h : (processPair env t store pair).2.opened = some sig) :
    store.any (fun s => s.pair == pair) = false ∧
    ∃ closes dec, env.series pair = some closes ∧ evalPair pair closes = some dec ∧
      env.notifyOk pair = true ∧
      sig = ⟨pair, dec.direction, dec.entry, dec.tp, dec.sl, t, env.msgId pair⟩ := by
  unfold processPair at h
  split at h
  · simp at h
  · next hany =>
    split at h
    · simp at h
    · next closes heq =>
      split at h
      · simp at h
      · next dec heq2 =>
        split at h
        · next hok =>
          refine ⟨by simpa using hany, closes, dec, heq, heq2, hok, ?_⟩
          simpa using h.symm
        · simp at h

lemma evalPair_inv {pair : String} {closes : List ℚ} {dec : Decision}
    (h : evalPair pair closes = some dec) :
    ∃ rsiVal atrVal, 15 ≤ closes.length ∧
      rsi closes 14 = some rsiVal ∧ atr closes 14 = some atrVal ∧
      dec.entry = closes.getLastD 0 ∧
      ((rsiVal < 30 ∧ dec.direction = Dir.buy) ∨
        (¬ rsiVal < 30 ∧ 70 < rsiVal ∧ dec.direction = Dir.sell)) ∧
      dec.tp = quantizeTick (tickOf pair)
        (dec.entry + atrVal * (3 / 2) * (if dec.direction = Dir.buy then 1 else -1)) ∧
      dec.sl = quantizeTick (tickOf pair)
        (dec.entry - atrVal * 1 * (if dec.direction = Dir.buy then 1 else -1)) := by
  unfold evalPair at h
  split at h
  · simp at h
  · next hlen =>
    split at h
    · next rsiVal atrVal heqr heqa =>
      split at h
      · simp at h
      · next d hif =>
        refine ⟨rsiVal, atrVal, by omega, heqr, heqa, ?_⟩
        cases d with
        | buy =>
          simp only [Option.some.injEq] at h
          subst h
          have h30 : rsiVal < 30 := by
            by_contra h30
            rw [if_neg h30] at hif
            split at hif <;> simp at hif
          exact ⟨rfl, Or.inl ⟨h30, rfl⟩, by simp, by simp⟩
        | sell =>
          simp only [Option.some.injEq] at h
          subst h
          have h30 : ¬ rsiVal < 30 := by
            intro h30
            rw [if_pos h30] at hif
            simp at hif
          have h70 : 70 < rsiVal := by
            by_contra h70
            rw [if_neg h30, if_neg h70] at hif
            simp at hif
          exact ⟨rfl, Or.inr ⟨h30, h70, rfl⟩, by simp, by simp⟩
    · simp at h

lemma processPair_fst (env : Env) (t : ℚ) (store : List Signal) (pair : String) :
    (processPair env t store pair).1 = store ∨
    ∃ sig : Signal, sig.pair = pair ∧ store.any (fun s => s.pair == pair) = false ∧
      (processPair env t store pair).1 = store ++ [sig] := by
  unfold processPair
  split
  · exact Or.inl rfl
  · next hany =>
    split
    · exact Or.inl rfl
    · split
      · exact Or.inl rfl
      · split
        · exact Or.inr ⟨_, rfl, by simpa using hany, rfl⟩
        · exact Or.inl rfl

lemma processPair_pairwise {store : List Signal} (h : PairsDistinct store)
    (env : Env) (t : ℚ) (pair : String) :
    PairsDistinct (processPair env t store pair).1 := by
  rcases processPair_fst env t store pair with heq | ⟨sig, hp, hany, heq⟩
  · rwa [heq]
  · rw [heq]
    unfold PairsDistinct at *
    rw [List.pairwise_append]
    refine ⟨h, List.pairwise_singleton _ _, ?_⟩
    intro a ha b hb
    have hb' : b = sig := by simpa using hb
    subst hb'
    rw [hp]
    intro hcontra
    have : ¬ (store.any (fun s => s.pair == pair) = true) := by simp [hany]
    exact this (List.any_eq_true.mpr ⟨a, ha, by simpa using hcontra⟩)

lemma sendList_pairwise (env : Env) (t : ℚ) (ps : List String) :
    ∀ store : List Signal, PairsDistinct store → PairsDistinct (sendList env t store ps).1 := by
  induction ps with
  | nil => intro store h; exact h
  | cons p ps ih =>
      intro store h
      exact ih _ (processPair_pairwise h env t p)

lemma checkLoop_fst (env : CEnv) (now : ℚ) (l : List Signal) :
    (checkLoop env now l).1 = l.filter fun s => (keepAndEvents env now s).1 := by
  induction l with
  | nil => rfl
  | cons sig rest ih =>
      rw [List.filter_cons]
      cases h : (keepAndEvents env now sig).1 with
      | false =>
          simp only [h, if_neg (by simp : ¬ (false = true))]
          rw [← ih]
          simp [checkLoop, h]
      | true =>
          simp only [h, if_pos rfl]
          rw [← ih]
          simp [checkLoop, h]

lemma checkLoop_event_mem (env : CEnv) (now : ℚ) {l : List Signal} {sig : Signal}
    (hmem : sig ∈ l) {e : REvent} (he : e ∈ (keepAndEvents env now sig).2) :
    e ∈ (checkLoop env now l).2 := by
  induction l with
  | nil => cases hmem
  | cons a rest ih =>
      rcases List.mem_cons.mp hmem with h | h
      · subst h
        exact List.mem_append.mpr (Or.inl he)
      · exact List.mem_append.mpr (Or.inr (ih h))

lemma keep_iff (env : CEnv) (now : ℚ) (sig : Signal) :
    (keepAndEvents env now sig).1 = false ↔
      300 ≤ now - sig.createdAt ∧ ∃ cur, env.price sig.pair = some cur ∧
        classify sig.direction sig.tp sig.sl cur ≠ Outcome.pending := by
  unfold keepAndEvents
  split
  · next hlt =>
    constructor
    · intro h; simp at h
    · rintro ⟨h, -⟩; linarith
  · next hge =>
    rw [not_lt] at hge
    split
    · next hp =>
      constructor
      · intro h; simp at h
      · rintro ⟨-, cur, hcur, -⟩
        rw [hp] at hcur
        cases hcur
    · next cur hp =>
      split
      · next hpend =>
        constructor
        · intro h; simp at h
        · rintro ⟨-, cur', hcur', hne⟩
          rw [hp] at hcur'
          injection hcur' with hc
          exact (hne (hc ▸ hpend)).elim
      · next o hnp =>
        constructor
        · intro _
          exact ⟨hge, cur, hp, hnp⟩
        · intro _
          rfl

lemma keepAndEvents_terminal (env : CEnv) (now : ℚ) (sig : Signal) (cur : ℚ)
    (hheld : 300 ≤ now - sig.createdAt) (hp : env.price sig.pair = some cur)
    (hterm : classify sig.direction sig.tp sig.sl cur ≠ Outcome.pending) :
    keepAndEvents env now sig =
      (false, [⟨sig.pair, sig.messageId, classify sig.direction sig.tp sig.sl cur,
                env.resultOk sig.pair⟩]) := by
  unfold keepAndEvents
  rw [if_neg (not_lt.mpr hheld), hp]
  dsimp only
  split
  · next hpend => exact absurd hpend hterm
  · rfl

lemma checkResults_pairwise {store : List Signal} (h : PairsDistinct store)
    (env : CEnv) (now : ℚ) : PairsDistinct (checkResults env now store).1 := by
  unfold checkResults PairsDistinct at *
  rw [checkLoop_fst]
  exact List.Pairwise.sublist
    ((List.filter_sublist _).trans (List.filter_sublist _)) h

lemma deltasOf_length (closes : List ℚ) : (deltasOf closes).length = closes.length - 1 := by
  unfold deltasOf
  rw [List.length_zipWith, List.length_tail]
  omega

lemma lastN_length {lst : List ℚ} {n : ℕ} (h : n ≤ lst.length) : (lastN lst n).length = n := by
  unfold lastN
  rw [List.length_drop]
  omega

lemma lastN_of_length_le {lst : List ℚ} {n : ℕ} (h : lst.length ≤ n) : lastN lst n = lst := by
  unfold lastN
  rw [Nat.sub_eq_zero_of_le h, List.drop_zero]

lemma gains_length {closes : List ℚ} {n : ℕ} (h : n + 1 ≤ closes.length) :
    (gains closes n).length = n := by
  unfold gains
  rw [List.length_map, lastN_length (by rw [deltasOf_length]; omega)]

lemma losses_length {closes : List ℚ} {n : ℕ} (h : n + 1 ≤ closes.length) :
    (losses closes n).length = n := by
  unfold losses
  rw [List.length_map, lastN_length (by rw [deltasOf_length]; omega)]

lemma sma_of_length {lst : List ℚ} {n : ℕ} (h : lst.length = n) :
    sma lst n = some (lst.sum / n) := by
  unfold sma
  rw [if_pos (by omega), lastN_of_length_le (by omega)]

lemma gains_sum_nonneg (closes : List ℚ) (n : ℕ) : 0 ≤ (gains closes n).sum := by
  apply List.sum_nonneg
  intro x hx
  obtain ⟨d, -, rfl⟩ := List.mem_map.mp hx
  split
  · next h => exact le_of_lt h
  · exact le_refl 0

lemma losses_sum_nonneg (closes : List ℚ) (n : ℕ) : 0 ≤ (losses closes n).sum := by
  apply List.sum_nonneg
  intro x hx
  obtain ⟨d, -, rfl⟩ := List.mem_map.mp hx
  split
  · next h => linarith
  · exact le_refl 0

lemma rsi_eq_of_len {closes : List ℚ} {n : ℕ} (h : n + 1 ≤ closes.length) :
    rsi closes n =
      (if (gains closes n).sum / n = 0 ∨ (losses closes n).sum / n = 0 then none
       else some (100 - 100 / (1 + ((gains closes n).sum / n) / ((losses closes n).sum / n)))) := by
  unfold rsi
  rw [if_neg (by omega), sma_of_length (gains_length h), sma_of_length (losses_length h)]

/-- Claim C1: for every reachable state of the open-signal store and every
pair, at most one open signal with that pair exists (the store is pairwise
distinct on pairs, from a fresh start under any interleaving of
send_signals and check_results ticks); and whenever the open-decision path
runs for a pair that already has an open signal in the store, it creates
no new signal, performs no price fetch, and sends no notification for that
pair. -/
theorem open_signal_unique_and_skip :
    (∀ s, Reachable s → PairsDistinct s) ∧
    (∀ (env : Env) (t : ℚ) (store : List Signal) (pair : String),
      store.any (fun s => s.pair == pair) = true →
      processPair env t store pair = (store, ⟨false, false, none⟩)) := by
  constructor
  · intro s h
    induction h with
    | init => exact List.Pairwise.nil
    | send env t hr ih => exact sendList_pairwise env t PAIRS _ ih
    | check env t hr ih => exact checkResults_pairwise ih env t
  · intro env t store pair h
    unfold processPair
    rw [if_pos h]

/-- Witness for C1: the empty store is reachable and pairwise distinct, and
with sigEx open for EUR/USD the open path skips that pair with no fetch,
no notification and no new signal. -/
theorem open_signal_unique_and_skip_witness :
    PairsDistinct [] ∧
    processPair ⟨fun _ => none, fun _ => true, fun _ => 0⟩ 0 [sigEx] "EUR/USD" =
      ([sigEx], ⟨false, false, none⟩) :=
  ⟨open_signal_unique_and_skip.1 [] Reachable.init,
   open_signal_unique_and_skip.2 ⟨fun _ => none, fun _ => true, fun _ => 0⟩ 0
     [sigEx] "EUR/USD" (by decide)⟩

/-- Claim C6: on the open-decision path, if sending the open notification
fails for a pair, the new signal is not appended and the store is left
unchanged for that pair, and evaluation of the remaining pairs continues
from that same store. -/
theorem open_notify_failure_consistent (env : Env) (t : ℚ) (store : List Signal)
    (pair : String) (rest : List String)
    (h : env.notifyOk pair = false) :
    (processPair env t store pair).1 = store ∧
    sendList env t store (pair :: rest) =
      ((sendList env t store rest).1,
        (processPair env t store pair).2 :: (sendList env t store rest).2) := by
  have h1 : (processPair env t store pair).1 = store := by
    unfold processPair
    split
    · rfl
    · split
      · rfl
      · split
        · rfl
        · split
          · next hok => rw [h] at hok; cases hok
          · rfl
  refine ⟨h1, ?_⟩
  rw [sendList]
  simp only [h1]

/-- Witness for C6: with an always-failing notification sink and a series
that produces a SELL decision, the store stays empty and the loop result
for the remaining pair list is unchanged. -/
theorem open_notify_failure_consistent_witness :
    (processPair failEnv 0 [] "EUR/USD").1 = [] ∧
    sendList failEnv 0 [] ["EUR/USD", "GBP/USD"] =
      ((sendList failEnv 0 [] ["GBP/USD"]).1,
        (processPair failEnv 0 [] "EUR/USD").2 :: (sendList failEnv 0 [] ["GBP/USD"]).2) :=
  open_notify_failure_consistent failEnv 0 [] "EUR/USD" ["GBP/USD"] rfl

/-- Claim C10: in bot.py, for every invocation of the open-decision path at
a local America/Lima time inside one of the hard-coded news windows 08:30
to 09:30 or 14:00 to 15:00, send_signals returns immediately: the store is
unchanged and no pair is evaluated, so no price data is fetched and no
signal is opened or notified during those windows. -/
theorem news_window_skips (env : BotEnv) (dt : PyTime) (t : ℚ) (store : List Signal)
    (h : inNewsWindow dt) :
    send_signals_bot env dt t store = (store, []) := by
  have hnews : is_news_time dt = true := by
    unfold is_news_time NEWS_TIMES
    rcases h with ⟨h1, h2⟩ | ⟨h1, h2⟩ <;> simp [h1, h2]
  unfold send_signals_bot
  rw [if_pos hnews]

/-- Witness for C10: at 08:45:00 local time a send_signals tick leaves the
store untouched and produces no per-pair trace at all. -/
theorem news_window_skips_witness :
    send_signals_bot quietBotEnv ⟨8, 45, 0, 0⟩ 0 [] = ([], []) :=
  news_window_skips quietBotEnv ⟨8, 45, 0, 0⟩ 0 [] (by unfold inNewsWindow; decide)

/-- Claim C2 counterexample: on the series cexCloses (ATR 0.00002, RSI 25/7)
the open path persists a BUY signal whose rounded levels collapse onto the
entry, entry = takeProfit = stopLoss = 1.1, so stopLoss < entry < takeProfit
fails for a persisted BUY signal. -/
theorem levels_order_cex :
    (processPair cexEnv 0 [] "EUR/USD").1 =
      [⟨"EUR/USD", Dir.buy, 11 / 10, 11 / 10, 11 / 10, 0, 1⟩] ∧
    ¬ ((11 : ℚ) / 10 < 11 / 10) := by
  constructor
  · norm_num +decide [processPair, cexEnv, cexCloses, evalPair, rsi, atr, sma, lastN,
      deltasOf, gains, losses, tickOf, strContains, listHas, listLead, quantizeTick,
      rhalfAway, List.replicate, abs_of_pos, abs_of_nonpos]
  · simp

/-- Claim C2 (amended): every signal persisted by the open-decision path of
botfx.py whose series ATR exceeds half the tick of its pair satisfies the
directional ordering after tick rounding: BUY gives stopLoss < entry <
takeProfit and SELL gives takeProfit < entry < stopLoss.  Without the ATR
bound the ordering can collapse, as the counterexample shows. -/
theorem levels_ordered (env : Env) (t : ℚ) (store : List Signal) (pair : String)
    (sig : Signal) (closes : List ℚ) (a : ℚ)
    (hs : env.series pair = some closes)
    (ha : atr closes 14 = some a)
    (htick : tickOf pair < 2 * a)
    (hop : (processPair env t store pair).2.opened = some sig) :
    (sig.direction = Dir.buy → sig.sl < sig.entry ∧ sig.entry < sig.tp) ∧
    (sig.direction = Dir.sell → sig.tp < sig.entry ∧ sig.entry < sig.sl) := by
  obtain ⟨-, closes', dec, hs', hev, -, hsig⟩ := processPair_opened_inv hop
  rw [hs] at hs'
  injection hs' with hc
  subst hc
  obtain ⟨r, a', -, -, ha', -, -, htp, hsl⟩ := evalPair_inv hev
  rw [ha] at ha'
  injection ha' with haa
  subst haa
  have ht0 := tickOf_pos pair
  have ha0 : 0 < a := by linarith
  rw [hsig]
  dsimp only
  constructor
  · intro hbuy
    have hsgn : (if dec.direction = Dir.buy then (1 : ℚ) else -1) = 1 := by
      rw [hbuy]; simp
    rw [hsgn] at htp hsl
    have hbtp := quantizeTick_bounds (tickOf pair) (dec.entry + a * (3 / 2) * 1) ht0
    have hbsl := quantizeTick_bounds (tickOf pair) (dec.entry - a * 1 * 1) ht0
    rw [← htp] at hbtp
    rw [← hsl] at hbsl
    constructor
    · linarith [hbsl.2]
    · linarith [hbtp.1]
  · intro hsell
    have hsgn : (if dec.direction = Dir.buy then (1 : ℚ) else -1) = -1 := by
      rw [hsell]; simp
    rw [hsgn] at htp hsl
    have hbtp := quantizeTick_bounds (tickOf pair) (dec.entry + a * (3 / 2) * (-1)) ht0
    have hbsl := quantizeTick_bounds (tickOf pair) (dec.entry - a * 1 * (-1)) ht0
    rw [← htp] at hbtp
    rw [← hsl] at hbsl
    constructor
    · linarith [hbtp.2]
    · linarith [hbsl.1]

/-- Witness for the amended C2: on buyCloses the ATR is 0.0002, above half
the EUR/USD tick, and the persisted BUY signal has sl 1.0998 < entry 1.1 <
tp 1.1003. -/
theorem levels_ordered_witness :
    atr buyCloses 14 = some (1 / 5000) ∧
    (5499 / 5000 : ℚ) < 11 / 10 ∧ (11 / 10 : ℚ) < 11003 / 10000 := by
  have ha : atr buyCloses 14 = some (1 / 5000) := by
    norm_num +decide [atr, sma, lastN, buyCloses, List.replicate, abs_of_pos, abs_of_nonpos]
  have h := levels_ordered buyEnv 0 [] "EUR/USD"
    ⟨"EUR/USD", Dir.buy, 11 / 10, 11003 / 10000, 5499 / 5000, 0, 2⟩ buyCloses (1 / 5000)
    rfl ha
    (by norm_num +decide [tickOf, strContains, listHas, listLead])
    (by norm_num +decide [processPair, buyEnv, buyCloses, evalPair, rsi, atr, sma, lastN,
      deltasOf, gains, losses, tickOf, strContains, listHas, listLead, quantizeTick,
      rhalfAway, List.replicate, abs_of_pos, abs_of_nonpos])
  exact ⟨ha, h.1 rfl⟩

/-- Claim C5: whenever the open-decision path persists a signal for a
series with ATR value a, its levels are takeProfit =
round(entry + a * 1.5 * sign) and stopLoss = round(entry - a * 1.0 * sign)
with sign +1 for BUY and -1 for SELL, where round is rounding to the
nearest multiple of the tick of the pair (0.01 when the pair contains JPY,
0.0001 otherwise) with ties resolved half away from zero.  Proved against
botfx.py, whose Decimal quantize with ROUND_HALF_UP the rationals model
exactly; bot.py computes the same formula in IEEE doubles with the builtin
round, whose tie behaviour is a floating-point representation question
outside this exact-rational embedding. -/
theorem levels_formula (env : Env) (t : ℚ) (store : List Signal) (pair : String)
    (sig : Signal) (closes : List ℚ) (a : ℚ)
    (hs : env.series pair = some closes)
    (ha : atr closes 14 = some a)
    (hop : (processPair env t store pair).2.opened = some sig) :
    sig.tp = quantizeTick (tickOf pair)
      (sig.entry + a * (3 / 2) * (if sig.direction = Dir.buy then 1 else -1)) ∧
    sig.sl = quantizeTick (tickOf pair)
      (sig.entry - a * 1 * (if sig.direction = Dir.buy then 1 else -1)) ∧
    tickOf pair = (if strContains pair "JPY" then 1 / 100 else 1 / 10000) ∧
    (∀ x : ℚ,
      (∃ m : ℤ, quantizeTick (tickOf pair) x = tickOf pair * m) ∧
      (∀ m : ℤ, |x - quantizeTick (tickOf pair) x| ≤ |x - tickOf pair * m|) ∧
      (∀ m : ℤ, |x - tickOf pair * m| = |x - quantizeTick (tickOf pair) x| →
        |tickOf pair * m| ≤ |quantizeTick (tickOf pair) x|)) := by
  obtain ⟨-, closes', dec, hs', hev, -, hsig⟩ := processPair_opened_inv hop
  rw [hs] at hs'
  injection hs' with hc
  subst hc
  obtain ⟨r, a', -, -, ha', -, -, htp, hsl⟩ := evalPair_inv hev
  rw [ha] at ha'
  injection ha' with haa
  subst haa
  rw [hsig]
  dsimp only
  refine ⟨htp, hsl, rfl, ?_⟩
  intro x
  exact ⟨quantizeTick_mult _ _,
    fun m => quantizeTick_nearest _ _ (tickOf_pos pair) m,
    fun m hm => quantizeTick_tie _ _ (tickOf_pos pair) m hm⟩

/-- Witness for the amended C5: the SELL signal persisted on c5closes has
tp 1.0997, equal to the half-away rounding of 1.1 - 0.0002 * 1.5. -/
theorem levels_formula_witness :
    (⟨"EUR/USD", Dir.sell, 11 / 10, 10997 / 10000, 5501 / 5000, 0, 3⟩ : Signal).tp =
      quantizeTick (tickOf "EUR/USD")
        ((11 : ℚ) / 10 + (1 / 5000) * (3 / 2) *
          (if (Dir.sell = Dir.buy) then 1 else -1)) := by
  have h := levels_formula c5env 0 [] "EUR/USD"
    ⟨"EUR/USD", Dir.sell, 11 / 10, 10997 / 10000, 5501 / 5000, 0, 3⟩ c5closes (1 / 5000)
    rfl
    (by norm_num +decide [atr, sma, lastN, c5closes, List.replicate, abs_of_pos, abs_of_nonpos])
    (by norm_num +decide [processPair, c5env, c5closes, evalPair, rsi, atr, sma, lastN,
      deltasOf, gains, losses, tickOf, strContains, listHas, listLead, quantizeTick,
      rhalfAway, List.replicate, abs_of_pos, abs_of_nonpos])
  exact h.1

/-- Claim C3 counterexample: a BUY signal with takeProfit = stopLoss =
latest = 1.1 (price levels the open path can persist when rounding
collapses them) satisfies the LOSS condition latest at most stopLoss, yet
the classification is WIN: the win branch is tested first, so LOSS does
not hold exactly when the LOSS condition does. -/
theorem classify_overlap_cex :
    classify Dir.buy (11 / 10) (11 / 10) (11 / 10) = Outcome.win ∧
    ((Dir.buy = Dir.buy ∧ (11 : ℚ) / 10 ≤ 11 / 10) ∨
      (Dir.buy = Dir.sell ∧ (11 : ℚ) / 10 ≤ 11 / 10)) ∧
    Outcome.win ≠ Outcome.loss := by
  refine ⟨?_, Or.inl ⟨rfl, le_refl _⟩, by simp⟩
  unfold classify
  rw [if_pos (Or.inl ⟨rfl, le_refl _⟩)]

/-- Claim C3 (amended): the close path classifies WIN exactly when (BUY and
latest at least takeProfit) or (SELL and latest at most takeProfit); LOSS
exactly when that WIN condition fails and ((BUY and latest at most
stopLoss) or (SELL and latest at least stopLoss)); and PENDING exactly
when neither condition holds. -/
theorem classify_characterization (d : Dir) (tp sl cur : ℚ) :
    (classify d tp sl cur = Outcome.win ↔
      (d = Dir.buy ∧ tp ≤ cur) ∨ (d = Dir.sell ∧ cur ≤ tp)) ∧
    (classify d tp sl cur = Outcome.loss ↔
      ¬ ((d = Dir.buy ∧ tp ≤ cur) ∨ (d = Dir.sell ∧ cur ≤ tp)) ∧
        ((d = Dir.buy ∧ cur ≤ sl) ∨ (d = Dir.sell ∧ sl ≤ cur))) ∧
    (classify d tp sl cur = Outcome.pending ↔
      ¬ ((d = Dir.buy ∧ tp ≤ cur) ∨ (d = Dir.sell ∧ cur ≤ tp)) ∧
        ¬ ((d = Dir.buy ∧ cur ≤ sl) ∨ (d = Dir.sell ∧ sl ≤ cur))) := by
  unfold classify
  split
  · next hA => exact ⟨by simp [hA], by simp [hA], by simp [hA]⟩
  · next hA =>
    split
    · next hB => exact ⟨by simp [hA], by simp [hA, hB], by simp [hA, hB]⟩
    · next hB => exact ⟨by simp [hA], by simp [hA, hB], by simp [hA, hB]⟩

/-- Claim C4: the RSI of botfx.py is undefined exactly when the series has
fewer than window + 1 points or the simple moving average of the gains or
of the losses over the most recent window deltas is zero; otherwise it
equals 100 - 100 / (1 + avgGain / avgLoss) and lies in [0, 100]; in
particular a series of exactly window points yields none and one of
window + 1 points with nonzero averages yields a defined value. -/
theorem rsi_characterization (closes : List ℚ) (n : ℕ) (hn : 0 < n) :
    (rsi closes n = none ↔
      closes.length < n + 1 ∨ sma (gains closes n) n = some 0 ∨
        sma (losses closes n) n = some 0) ∧
    (∀ v, rsi closes n = some v →
      ∃ avgGain avgLoss, sma (gains closes n) n = some avgGain ∧
        sma (losses closes n) n = some avgLoss ∧ avgGain ≠ 0 ∧ avgLoss ≠ 0 ∧
        v = 100 - 100 / (1 + avgGain / avgLoss) ∧ 0 ≤ v ∧ v ≤ 100) ∧
    (closes.length = n → rsi closes n = none) ∧
    (closes.length = n + 1 → sma (gains closes n) n ≠ some 0 →
      sma (losses closes n) n ≠ some 0 → ∃ v, rsi closes n = some v) := by
  by_cases hlen : closes.length < n + 1
  · have hr : rsi closes n = none := by unfold rsi; rw [if_pos hlen]
    refine ⟨by simp [hr, hlen], ?_, fun _ => hr, ?_⟩
    · intro v hv
      rw [hr] at hv
      cases hv
    · intro hl
      omega
  · have hlen' : n + 1 ≤ closes.length := by omega
    have hg := sma_of_length (gains_length hlen')
    have hl := sma_of_length (losses_length hlen')
    have hre := rsi_eq_of_len hlen'
    refine ⟨?_, ?_, ?_, ?_⟩
    · rw [hre]
      constructor
      · intro hnone
        split at hnone
        · next hz =>
          rcases hz with hz | hz
          · exact Or.inr (Or.inl (by rw [hg, hz]))
          · exact Or.inr (Or.inr (by rw [hl, hz]))
        · cases hnone
      · intro h
        rcases h with h | h | h
        · omega
        · rw [hg] at h
          injection h with h0
          rw [if_pos (Or.inl h0)]
        · rw [hl] at h
          injection h with h0
          rw [if_pos (Or.inr h0)]
    · intro v hv
      rw [hre] at hv
      split at hv
      · cases hv
      · next hz =>
        push_neg at hz
        injection hv with hveq
        have hag : 0 < (gains closes n).sum / n :=
          lt_of_le_of_ne (div_nonneg (gains_sum_nonneg closes n) (Nat.cast_nonneg n))
            (Ne.symm hz.1)
        have hal : 0 < (losses closes n).sum / n :=
          lt_of_le_of_ne (div_nonneg (losses_sum_nonneg closes n) (Nat.cast_nonneg n))
            (Ne.symm hz.2)
        have hrs : 0 < (gains closes n).sum / n / ((losses closes n).sum / n) :=
          div_pos hag hal
        have h1 : 100 / (1 + (gains closes n).sum / n / ((losses closes n).sum / n)) ≤ 100 :=
          div_le_self (by norm_num) (by linarith)
        have h2 : 0 < 100 / (1 + (gains closes n).sum / n / ((losses closes n).sum / n)) :=
          div_pos (by norm_num) (by linarith)
        exact ⟨_, _, hg, hl, hz.1, hz.2, hveq.symm, by rw [← hveq]; linarith,
          by rw [← hveq]; linarith⟩
    · intro h
      omega
    · intro hlen2 hgne hlne
      rw [hre, if_neg ?_]
      · exact ⟨_, rfl⟩
      · rintro (h0 | h0)
        · exact hgne (by rw [hg, h0])
        · exact hlne (by rw [hl, h0])

/-- Witness for C4 at the series c4closes: its RSI is 200/3, which the
theorem places inside [0, 100]. -/
theorem rsi_characterization_witness :
    rsi c4closes 14 = some (200 / 3) ∧ 0 ≤ (200 : ℚ) / 3 ∧ (200 : ℚ) / 3 ≤ 100 := by
  have hv : rsi c4closes 14 = some (200 / 3) := by
    norm_num +decide [rsi, sma, lastN, deltasOf, gains, losses, c4closes, List.replicate]
  have h := (rsi_characterization c4closes 14 (by norm_num)).2.1 (200 / 3) hv
  obtain ⟨ag, al, -, -, -, -, -, h0, h100⟩ := h
  exact ⟨hv, h0, h100⟩

/-- Claim C7 counterexample: sigC7 resolved as WIN but the result send
fails; the signal is nonetheless removed from the store (the still list is
empty), contradicting that it remains open for retry. -/
theorem close_notify_failure_cex :
    classify sigC7.direction sigC7.tp sigC7.sl (1103 / 1000) = Outcome.win ∧
    cenvC7.resultOk "EUR/USD" = false ∧
    checkResults cenvC7 400 [sigC7] = ([], [⟨"EUR/USD", 5, Outcome.win, false⟩]) := by
  refine ⟨?_, rfl, ?_⟩
  · norm_num +decide [classify, sigC7]
  · norm_num +decide [checkResults, checkLoop, keepAndEvents, classify, sigC7, cenvC7]

/-- Claim C7 (amended): on the close path of botfx.py a signal with a
terminal outcome is removed from the open set even when the result
notification fails; the failed attempt is recorded and the signal is not
retried. -/
theorem close_notify_failure_removes (env : CEnv) (now : ℚ) (store : List Signal)
    (sig : Signal) (cur : ℚ)
    (hmem : sig ∈ store)
    (hcut : now - 21600 < sig.createdAt)
    (hheld : 300 ≤ now - sig.createdAt)
    (hp : env.price sig.pair = some cur)
    (hterm : classify sig.direction sig.tp sig.sl cur ≠ Outcome.pending)
    (hfail : env.resultOk sig.pair = false) :
    sig ∉ (checkResults env now store).1 ∧
    (⟨sig.pair, sig.messageId, classify sig.direction sig.tp sig.sl cur,
      false⟩ : REvent) ∈ (checkResults env now store).2 := by
  have hke := keepAndEvents_terminal env now sig cur hheld hp hterm
  rw [hfail] at hke
  constructor
  · rw [checkResults, checkLoop_fst]
    intro hin
    rw [List.mem_filter] at hin
    rw [hke] at hin
    simp at hin
  · rw [checkResults]
    apply checkLoop_event_mem
    · rw [List.mem_filter]
      refine ⟨hmem, ?_⟩
      simp only [decide_eq_true_eq]
      exact hcut
    · rw [hke]
      exact List.mem_singleton.mpr rfl

/-- Witness for the amended C7 at sigC7: the signal is gone from the store
after the tick although its result notification failed. -/
theorem close_notify_failure_removes_witness :
    sigC7 ∉ (checkResults cenvC7 400 [sigC7]).1 := by
  have h := close_notify_failure_removes cenvC7 400 [sigC7] sigC7 (1103 / 1000)
    (List.mem_singleton.mpr rfl) (by norm_num [sigC7]) (by norm_num [sigC7]) rfl
    (by norm_num +decide [classify, sigC7]) rfl
  exact h.1

/-- Claim C8 counterexample: a signal opened more than six hours before the
tick is silently dropped by the cutoff filter: the store empties although
no price was even obtainable, no outcome was computed and no result
notification was attempted. -/
theorem stale_purge_cex :
    checkResults cenvNoPrice 30000 [sigOld] = ([], []) ∧
    cenvNoPrice.price "GBP/USD" = none := by
  refine ⟨?_, rfl⟩
  norm_num +decide [checkResults, checkLoop, keepAndEvents, sigOld, cenvNoPrice]

/-- Claim C8 (amended): a signal present in the store is removed by a
check_results tick of botfx.py exactly when it is older than the six hour
cutoff (a silent purge with no resolution) or the holding period has
elapsed, a latest price was obtainable and the classification is terminal;
in the terminal case the removal is paired with a result notification
attempt threaded to the original message. -/
theorem close_removal_characterization (env : CEnv) (now : ℚ) (store : List Signal)
    (sig : Signal) (hmem : sig ∈ store) :
    (sig ∉ (checkResults env now store).1 ↔
      sig.createdAt ≤ now - 21600 ∨
        (300 ≤ now - sig.createdAt ∧ ∃ cur, env.price sig.pair = some cur ∧
          classify sig.direction sig.tp sig.sl cur ≠ Outcome.pending)) ∧
    (∀ cur, now - 21600 < sig.createdAt → 300 ≤ now - sig.createdAt →
      env.price sig.pair = some cur →
      classify sig.direction sig.tp sig.sl cur ≠ Outcome.pending →
      (⟨sig.pair, sig.messageId, classify sig.direction sig.tp sig.sl cur,
        env.resultOk sig.pair⟩ : REvent) ∈ (checkResults env now store).2) := by
  constructor
  · constructor
    · intro hnot
      by_cases hcut : now - 21600 < sig.createdAt
      · right
        have hkeep : ¬ ((keepAndEvents env now sig).1 = true) := by
          intro hk
          apply hnot
          rw [checkResults, checkLoop_fst, List.mem_filter]
          refine ⟨?_, hk⟩
          rw [List.mem_filter]
          refine ⟨hmem, ?_⟩
          simp only [decide_eq_true_eq]
          exact hcut
        exact (keep_iff env now sig).mp (by simpa using hkeep)
      · left
        linarith [not_lt.mp hcut]
    · intro h
      rw [checkResults, checkLoop_fst]
      intro hin
      rw [List.mem_filter, List.mem_filter] at hin
      obtain ⟨⟨hmem', hcut'⟩, hkeep'⟩ := hin
      simp only [decide_eq_true_eq] at hcut'
      rcases h with h | h
      · linarith
      · have := (keep_iff env now sig).mpr h
        rw [this] at hkeep'
        cases hkeep'
  · intro cur hcut hheld hp hterm
    have hke := keepAndEvents_terminal env now sig cur hheld hp hterm
    rw [checkResults]
    apply checkLoop_event_mem
    · rw [List.mem_filter]
      refine ⟨hmem, ?_⟩
      simp only [decide_eq_true_eq]
      exact hcut
    · rw [hke]
      exact List.mem_singleton.mpr rfl

/-- Witness for the amended C8 at sigOld: being past the six hour cutoff
puts it in the removal characterization, so it is gone after the tick. -/
theorem close_removal_characterization_witness :
    sigOld ∉ (checkResults cenvNoPrice 30000 [sigOld]).1 := by
  have h := close_removal_characterization cenvNoPrice 30000 [sigOld] sigOld
    (List.mem_singleton.mpr rfl)
  exact h.1.mpr (Or.inl (by norm_num [sigOld]))

/-- Claim C9 (code evaluation): at startup botfx.py catches both
FileNotFoundError and JSONDecodeError and initializes the open-signal
collection to the empty list, but the bot.py loader load_json only guards
against a missing file and propagates the parse failure of a corrupt one,
so its module-level load raises instead of yielding the default. -/
theorem load_corrupt_behavior :
    loadActiveS FileState.corrupt = [] ∧ loadActiveS FileState.missing = [] ∧
    load_json FileState.corrupt [] = Except.error "JSONDecodeError" ∧
    load_json FileState.missing [] = Except.ok [] :=
  ⟨rfl, rfl, rfl, rfl⟩

/-- Witness for the amended C3: a SELL signal with latest 1 below its
takeProfit 1.1 classifies as WIN via the characterization. -/
theorem classify_characterization_witness :
    classify Dir.sell (11 / 10) (12 / 10) (1 : ℚ) = Outcome.win :=
  (classify_characterization Dir.sell (11 / 10) (12 / 10) 1).1.mpr
    (Or.inr ⟨rfl, by norm_num⟩)
